import Mathlib

/-!
Verification of the sampling, retention and trend-analysis engine of the
System-Monitor repository (src/os.py and src/virtual_dashboard.py), as a
shallow embedding in Lean 4.  Timestamps are modelled as integer seconds
(the source stores ISO strings and compares parsed datetimes, which is
order-isomorphic); numeric readings are modelled as rationals, which is
faithful for every comparison and division the source performs on them.
-/

namespace SysMon

/-- One entry of `memory_history` (src/os.py, background_monitor). -/
structure MemSample where
  timestamp : Int
  percent : ℚ
  used : ℚ
  available : ℚ
deriving Repr, DecidableEq

/-- One entry of `cpu_history`: per-core percentages plus their mean. -/
structure CpuSample where
  timestamp : Int
  percent : List ℚ
  avg : ℚ
deriving Repr, DecidableEq

/-- One entry of `disk_io_history`. -/
structure DiskSample where
  timestamp : Int
  read_bytes : ℚ
  write_bytes : ℚ
deriving Repr, DecidableEq

/-- One entry of `network_history`. -/
structure NetSample where
  timestamp : Int
  bytes_sent : ℚ
  bytes_recv : ℚ
deriving Repr, DecidableEq

/-- One entry of a per-process history list (`process_history[pid]`). -/
structure ProcSample where
  timestamp : Int
  memory_percent : ℚ
deriving Repr, DecidableEq

/-- The five module-level history containers of src/os.py.  The
`process_history` defaultdict is modelled as an association list in
insertion order (a CPython dict preserves insertion order). -/
structure MonState where
  memory_history : List MemSample
  cpu_history : List CpuSample
  disk_io_history : List DiskSample
  network_history : List NetSample
  process_history : List (Nat × List ProcSample)
deriving Repr, DecidableEq

/-- The per-process prune loop of `background_monitor` (src/os.py lines
162-168): each list is filtered to entries strictly newer than the cutoff,
and a pid whose list becomes empty is deleted from the dict. -/
def pruneTable (cutoff : Int) : List (Nat × List ProcSample) → List (Nat × List ProcSample)
  | [] => []
  | e :: rest =>
    let l2 := e.2.filter (fun s => decide (cutoff < s.timestamp))
    if l2.isEmpty then pruneTable cutoff rest
    else (e.1, l2) :: pruneTable cutoff rest

/-- The cleanup step of `background_monitor` (src/os.py lines 155-168):
the four global series keep entries strictly newer than `now` minus 24
hours; the per-process table keeps entries strictly newer than `now` minus
1 hour and drops emptied pids. -/
def pruneStore (now : Int) (st : MonState) : MonState :=
  { memory_history := st.memory_history.filter (fun x => decide (now - 86400 < x.timestamp)),
    cpu_history := st.cpu_history.filter (fun x => decide (now - 86400 < x.timestamp)),
    disk_io_history := st.disk_io_history.filter (fun x => decide (now - 86400 < x.timestamp)),
    network_history := st.network_history.filter (fun x => decide (now - 86400 < x.timestamp)),
    process_history := pruneTable (now - 3600) st.process_history }

lemma filter_self_idem {α : Type} (p : α → Bool) (l : List α) :
    (l.filter p).filter p = l.filter p := by
  induction l with
  | nil => rfl
  | cons a tl ih => cases h : p a <;> simp [List.filter_cons, h, ih]

lemma pruneTable_mem_ne_nil (c : Int) (t : List (Nat × List ProcSample))
    (pid : Nat) (l : List ProcSample) (h : (pid, l) ∈ pruneTable c t) : l ≠ [] := by
  induction t with
  | nil => simp [pruneTable] at h
  | cons e rest ih =>
    rw [pruneTable] at h
    split at h
    · exact ih h
    · rcases List.mem_cons.mp h with h1 | h1
      · rename_i hne
        intro hnil
        apply hne
        have : l = e.2.filter (fun s => decide (c < s.timestamp)) := congrArg Prod.snd h1
        rw [← this, hnil]
        rfl
      · exact ih h1

lemma pruneTable_mem_bound (c : Int) (t : List (Nat × List ProcSample))
    (pid : Nat) (l : List ProcSample) (h : (pid, l) ∈ pruneTable c t)
    (s : ProcSample) (hs : s ∈ l) : c < s.timestamp := by
  induction t with
  | nil => simp [pruneTable] at h
  | cons e rest ih =>
    rw [pruneTable] at h
    split at h
    · exact ih h
    · rcases List.mem_cons.mp h with h1 | h1
      · have : l = e.2.filter (fun s => decide (c < s.timestamp)) := congrArg Prod.snd h1
        rw [this] at hs
        have := (List.mem_filter.mp hs).2
        simpa using this
      · exact ih h1

lemma pruneTable_idem (c : Int) (t : List (Nat × List ProcSample)) :
    pruneTable c (pruneTable c t) = pruneTable c t := by
  induction t with
  | nil => rfl
  | cons e rest ih =>
    rw [pruneTable]
    split
    · exact ih
    · rename_i hne
      rw [pruneTable]
      simp only [filter_self_idem]
      rw [if_neg (by simpa using hne)]
      exact congrArg _ ih

/-- Claim C5: after `prune(now)` every retained sample in every series
satisfies `now - timestamp ≤ window`, with the window fixed at 24 hours
(86400 s) for the four global series and 1 hour (3600 s) for every
per-process series; this holds for every store state, hence after any
sequence of appends. -/
theorem prune_retention_bound (now : Int) (st : MonState) :
    (∀ s ∈ (pruneStore now st).memory_history, now - s.timestamp ≤ 86400) ∧
    (∀ s ∈ (pruneStore now st).cpu_history, now - s.timestamp ≤ 86400) ∧
    (∀ s ∈ (pruneStore now st).disk_io_history, now - s.timestamp ≤ 86400) ∧
    (∀ s ∈ (pruneStore now st).network_history, now - s.timestamp ≤ 86400) ∧
    (∀ pid l, (pid, l) ∈ (pruneStore now st).process_history →
      ∀ s ∈ l, now - s.timestamp ≤ 3600) := by
  refine ⟨?_, ?_, ?_, ?_, ?_⟩
  · intro s hs
    have := (List.mem_filter.mp hs).2
    simp only [decide_eq_true_eq] at this
    omega
  · intro s hs
    have := (List.mem_filter.mp hs).2
    simp only [decide_eq_true_eq] at this
    omega
  · intro s hs
    have := (List.mem_filter.mp hs).2
    simp only [decide_eq_true_eq] at this
    omega
  · intro s hs
    have := (List.mem_filter.mp hs).2
    simp only [decide_eq_true_eq] at this
    omega
  · intro pid l hl s hs
    have := pruneTable_mem_bound (now - 3600) st.process_history pid l hl s hs
    omega

/-- Concrete witness state for the retention-bound theorem. -/
def stWitness : MonState :=
  { memory_history := [⟨100000, 1, 1, 1⟩],
    cpu_history := [],
    disk_io_history := [],
    network_history := [],
    process_history := [(7, [⟨170000, 2⟩])] }

/-- Witness for C5 at a concrete store and time. -/
theorem prune_retention_bound_witness :
    (⟨100000, 1, 1, 1⟩ : MemSample) ∈ (pruneStore 172800 stWitness).memory_history ∧
    (172800 : Int) - 100000 ≤ 86400 :=
  ⟨by decide, (prune_retention_bound 172800 stWitness).1 ⟨100000, 1, 1, 1⟩ (by decide)⟩

/-- Claim C8: pruning with a fixed `now` is idempotent — a second
immediate `prune(now)` with no intervening append leaves the whole store
(all four global series and the per-process table) unchanged. -/
theorem pruneStore_idem (now : Int) (st : MonState) :
    pruneStore now (pruneStore now st) = pruneStore now st := by
  simp only [pruneStore, filter_self_idem, pruneTable_idem]

/-- Claim C9: after pruning, no pid of the process-history table maps to
an empty series — an entry emptied by the prune is deleted outright. -/
theorem prune_no_empty_process_series (now : Int) (st : MonState)
    (pid : Nat) (l : List ProcSample)
    (h : (pid, l) ∈ (pruneStore now st).process_history) : l ≠ [] :=
  pruneTable_mem_ne_nil (now - 3600) st.process_history pid l h

/-- Witness for C9: a pid retained by a concrete prune has a non-empty list. -/
theorem prune_no_empty_process_series_witness :
    (7, [(⟨170000, 2⟩ : ProcSample)]) ∈ (pruneStore 172800 stWitness).process_history ∧
    [(⟨170000, 2⟩ : ProcSample)] ≠ [] :=
  ⟨by decide, prune_no_empty_process_series 172800 stWitness 7 _ (by decide)⟩

/-- A successful `psutil.virtual_memory()` reading. -/
structure MemReading where
  percent : ℚ
  used : ℚ
  available : ℚ
deriving Repr, DecidableEq

/-- A successful `psutil.disk_io_counters()` reading. -/
structure DiskReading where
  read_bytes : ℚ
  write_bytes : ℚ
deriving Repr, DecidableEq

/-- A successful `psutil.net_io_counters()` reading. -/
structure NetReading where
  bytes_sent : ℚ
  bytes_recv : ℚ
deriving Repr, DecidableEq

/-- One item yielded by `psutil.process_iter`; `readOk = false` models the
item raising `NoSuchProcess` or `AccessDenied` when its info is consumed,
which the loop body catches per item. -/
structure ProcItem where
  pid : Nat
  readOk : Bool
  memory_percent : ℚ
deriving Repr, DecidableEq

/-- The metrics provider as seen by one cycle of `background_monitor`:
`none` models the psutil call raising an exception. -/
structure Provider where
  virtual_memory : Option MemReading
  cpu_percent : Option (List ℚ)
  disk_io_counters : Option DiskReading
  net_io_counters : Option NetReading
  process_iter : List ProcItem
deriving Repr, DecidableEq

/-- The per-process append loop of `background_monitor` (src/os.py lines
146-153): a failing item is skipped, the others are appended to their
pid entry of the defaultdict (a fresh pid is added at the end, matching
dict insertion order). -/
def tableAppend (pid : Nat) (s : ProcSample) :
    List (Nat × List ProcSample) → List (Nat × List ProcSample)
  | [] => [(pid, [s])]
  | e :: rest =>
    if e.1 = pid then (e.1, e.2 ++ [s]) :: rest
    else e :: tableAppend pid s rest

/-- Folding the process enumeration into the table, skipping failing items. -/
def appendProcs (now : Int) (items : List ProcItem)
    (t : List (Nat × List ProcSample)) : List (Nat × List ProcSample) :=
  items.foldl (fun acc it =>
    if it.readOk then tableAppend it.pid ⟨now, it.memory_percent⟩ acc else acc) t

/-- One cycle of `background_monitor` (src/os.py lines 108-174).  The
whole cycle body sits in a single `try`: an exception from a global
metric read (or the `sum/len` average of an empty per-core list, a
`ZeroDivisionError`) propagates to the cycle-level `except`, so every
statement after the failing one — later appends and the prune — is
skipped, while appends already performed are kept.  Only the per-process
loop has a per-item handler. -/
def cycle (now : Int) (p : Provider) (st : MonState) : MonState :=
  match p.virtual_memory with
  | none => st
  | some m =>
    let st1 := { st with
      memory_history := st.memory_history ++ [(⟨now, m.percent, m.used, m.available⟩ : MemSample)] }
    match p.cpu_percent with
    | none => st1
    | some cl =>
      if cl.isEmpty then st1
      else
        let st2 := { st1 with
          cpu_history := st1.cpu_history ++ [(⟨now, cl, cl.sum / (cl.length : ℚ)⟩ : CpuSample)] }
        match p.disk_io_counters with
        | none => st2
        | some d =>
          let st3 := { st2 with
            disk_io_history := st2.disk_io_history ++ [(⟨now, d.read_bytes, d.write_bytes⟩ : DiskSample)] }
          match p.net_io_counters with
          | none => st3
          | some n =>
            let st4 := { st3 with
              network_history := st3.network_history ++ [(⟨now, n.bytes_sent, n.bytes_recv⟩ : NetSample)] }
            let st5 := { st4 with
              process_history := appendProcs now p.process_iter st4.process_history }
            pruneStore now st5

/-- Provider for the C3 counterexample: the memory read fails while the
CPU, disk and network reads would all succeed. -/
def provNoMem : Provider :=
  { virtual_memory := none,
    cpu_percent := some [50],
    disk_io_counters := some ⟨1, 2⟩,
    net_io_counters := some ⟨3, 4⟩,
    process_iter := [] }

/-- Store holding one 30-day-old CPU sample and nothing else. -/
def stStale : MonState :=
  { memory_history := [],
    cpu_history := [⟨0, [10], 10⟩],
    disk_io_history := [],
    network_history := [],
    process_history := [] }

/-- Counterexample to claim C3 as stated: at time 2592000 s (30 days),
with only the global memory read failing, the claim says the CPU reading
is still appended and the CPU series still pruned; the code leaves the
store untouched — the fresh CPU reading is absent and the 30-day-old
CPU sample survives far beyond its 24-hour window. -/
theorem cycle_global_failure_counterexample :
    cycle 2592000 provNoMem stStale = stStale ∧
    stStale.cpu_history = [⟨0, [10], 10⟩] := by
  exact ⟨rfl, rfl⟩

lemma appendProcs_filter (now : Int) (items : List ProcItem)
    (t : List (Nat × List ProcSample)) :
    appendProcs now items t = appendProcs now (items.filter (fun it => it.readOk)) t := by
  induction items generalizing t with
  | nil => rfl
  | cons it rest ih =>
    cases h : it.readOk <;> simp [appendProcs, List.filter_cons, h, List.foldl_cons] <;>
      exact ih _

/-- Claim C3 (amended): only failures inside the per-process enumeration
are isolated per item — a cycle whose global reads all succeed behaves
exactly as if the failing process items were absent, with every other
append and the prune still performed; a failing global read instead
aborts the remainder of the cycle: a failing memory read leaves the
whole store untouched, and a failing disk read leaves the network
series, the process table (and the prune of both) unperformed while the
memory and CPU appends made before the failure are kept. -/
theorem cycle_failure_policy :
    (∀ (now : Int) (p : Provider) (st : MonState), p.virtual_memory = none →
      cycle now p st = st) ∧
    (∀ (now : Int) (p : Provider) (st : MonState) (m : MemReading) (cl : List ℚ),
      p.virtual_memory = some m → p.cpu_percent = some cl → cl ≠ [] →
      p.disk_io_counters = none →
      cycle now p st =
        { st with
          memory_history := st.memory_history ++ [(⟨now, m.percent, m.used, m.available⟩ : MemSample)],
          cpu_history := st.cpu_history ++ [(⟨now, cl, cl.sum / (cl.length : ℚ)⟩ : CpuSample)] }) ∧
    (∀ (now : Int) (p : Provider) (st : MonState),
      p.virtual_memory.isSome → (∃ cl, p.cpu_percent = some cl ∧ cl ≠ []) →
      p.disk_io_counters.isSome → p.net_io_counters.isSome →
      cycle now p st =
        cycle now { p with process_iter := p.process_iter.filter (fun it => it.readOk) } st) := by
  refine ⟨?_, ?_, ?_⟩
  · intro now p st h
    simp [cycle, h]
  · intro now p st m cl hm hc hcl hd
    simp [cycle, hm, hc, hd, List.isEmpty_iff, hcl]
  · intro now p st hm hc hd hn
    rcases Option.isSome_iff_exists.mp hm with ⟨m, hm2⟩
    rcases hc with ⟨cl, hc2, hcl⟩
    rcases Option.isSome_iff_exists.mp hd with ⟨d, hd2⟩
    rcases Option.isSome_iff_exists.mp hn with ⟨n, hn2⟩
    simp [cycle, hm2, hc2, hd2, hn2, List.isEmpty_iff, hcl, ← appendProcs_filter]

/-- Witness for C3 (amended), first conjunct at a concrete cycle. -/
theorem cycle_failure_policy_witness :
    cycle 60 provNoMem stStale = stStale :=
  cycle_failure_policy.1 60 provNoMem stStale rfl

/-- The history endpoint `get_history` (src/os.py lines 344-367).  The
memory and CPU lists are filtered with `datetime.fromisoformat`; the
disk and network list comprehensions call the misspelled
`datetime.fronisoformat`, so evaluating the condition on any element
raises `AttributeError`, which the surrounding handler turns into an
error response.  An empty list never evaluates the condition. -/
def filterDiskBroken (l : List DiskSample) : Except String (List DiskSample) :=
  match l with
  | [] => .ok []
  | _ :: _ => .error "AttributeError"

/-- The misspelled filter on the network list (same line-360/362 typo). -/
def filterNetBroken (l : List NetSample) : Except String (List NetSample) :=
  match l with
  | [] => .ok []
  | _ :: _ => .error "AttributeError"

/-- `get_history`: filter each of the four global series to samples
strictly newer than `now` minus `hours`; the disk and network filters go
through the misspelled attribute. -/
def get_history (now : Int) (hours : Int) (st : MonState) :
    Except String (List MemSample × List CpuSample × List DiskSample × List NetSample) := do
  let cutoff := now - hours * 3600
  let m := st.memory_history.filter (fun x => decide (cutoff < x.timestamp))
  let c := st.cpu_history.filter (fun x => decide (cutoff < x.timestamp))
  let d ← filterDiskBroken st.disk_io_history
  let n ← filterNetBroken st.network_history
  return (m, c, d, n)

/-- A store whose four series each hold exactly one sample taken at time
0, two hours before the query time 7200. -/
def stOld : MonState :=
  { memory_history := [⟨0, 50, 100, 100⟩],
    cpu_history := [⟨0, [10], 10⟩],
    disk_io_history := [⟨0, 1, 1⟩],
    network_history := [⟨0, 1, 1⟩],
    process_history := [] }

/-- Claim C1 concerns a store whose series contain only samples older
than the queried window: here every sample is 7200 s old against a
1-hour window, yet `get_history` returns an error (the AttributeError
from the misspelled `fronisoformat` on the non-empty disk list) instead
of four empty sequences. -/
theorem get_history_stale_store_errors :
    (∀ s ∈ stOld.memory_history, 7200 - s.timestamp > 3600) ∧
    (∀ s ∈ stOld.disk_io_history, 7200 - s.timestamp > 3600) ∧
    stOld.disk_io_history ≠ [] ∧
    get_history 7200 1 stOld = .error "AttributeError" := by
  refine ⟨by decide, by decide, by decide, rfl⟩

/-- A parsed JSON value as the `configure_alerts` handler sees a field.
`strNum q` is a string Python `float()` parses to `q`; `strBad` is a
string it rejects with `ValueError`; `float(bool)` yields 0 or 1. -/
inductive JVal where
  | num (q : ℚ)
  | strNum (q : ℚ)
  | strBad
  | boolVal (b : Bool)
  | null
deriving Repr, DecidableEq

/-- Python `float(v)`: `none` models the call raising an exception. -/
def pyFloat : JVal → Option ℚ
  | .num q => some q
  | .strNum q => some q
  | .strBad => none
  | .boolVal b => some (if b then 1 else 0)
  | .null => none

/-- The stored `app.config[ALERTS]` dict: three float thresholds and the
`enabled` value, stored as whatever JSON value the request carried. -/
structure AlertsConfig where
  cpu_threshold : ℚ
  memory_threshold : ℚ
  disk_threshold : ℚ
  enabled : JVal
deriving Repr, DecidableEq

/-- The request body of `POST /api/alerts/configure`: each field either
absent or some JSON value. -/
structure AlertsRequest where
  cpu_threshold : Option JVal
  memory_threshold : Option JVal
  disk_threshold : Option JVal
  enabled : Option JVal
deriving Repr, DecidableEq

/-- Outcome of `configure_alerts`: the 400 missing-fields response, the
generic 500 response from the handler-level `except`, or success. -/
inductive ConfigureResult where
  | validationError
  | internalError
  | success (c : AlertsConfig)
deriving Repr, DecidableEq

/-- `configure_alerts` (src/os.py lines 369-398): reject with the 400
validation message when a required threshold field is missing; otherwise
build the new dict, converting each threshold with `float()` — a
conversion failure raises inside the dict literal, before the
assignment, and the handler-level `except` returns the generic 500.
`enabled` is taken via `config.get` with default `True`, unconverted. -/
def configure_alerts (req : AlertsRequest) (stored : Option AlertsConfig) :
    ConfigureResult × Option AlertsConfig :=
  if req.cpu_threshold.isNone ∨ req.memory_threshold.isNone ∨ req.disk_threshold.isNone then
    (.validationError, stored)
  else
    match pyFloat (req.cpu_threshold.getD .null) with
    | none => (.internalError, stored)
    | some c =>
      match pyFloat (req.memory_threshold.getD .null) with
      | none => (.internalError, stored)
      | some m =>
        match pyFloat (req.disk_threshold.getD .null) with
        | none => (.internalError, stored)
        | some d =>
          let newCfg : AlertsConfig := ⟨c, m, d, req.enabled.getD (.boolVal true)⟩
          (.success newCfg, some newCfg)

/-- The previously stored configuration used in the C4 counterexample. -/
def storedDefault : Option AlertsConfig := some ⟨80, 80, 90, .boolVal true⟩

/-- Request with all three fields present but a non-numeric cpu value. -/
def reqBadCpu : AlertsRequest :=
  ⟨some .strBad, some (.num 50), some (.num 60), none⟩

/-- Counterexample to claim C4 as stated: a present but non-numeric
`cpu_threshold` does not produce the ValidationError rejection — the
`float()` call raises and the handler returns the generic internal
error (HTTP 500), though the stored config is indeed left unchanged. -/
theorem configure_alerts_nonnumeric_counterexample :
    configure_alerts reqBadCpu storedDefault = (.internalError, storedDefault) ∧
    ConfigureResult.internalError ≠ ConfigureResult.validationError := by
  exact ⟨rfl, by decide⟩

/-- Claim C4 (amended): `configure_alerts` answers with the
ValidationError rejection exactly when one of the three threshold fields
is absent; a present but non-float-convertible field instead fails with
the generic internal error; in every failing case the stored config is
unchanged, and on success all three thresholds are replaced together,
with `enabled` defaulting to true when omitted. -/
theorem configure_alerts_spec :
    (∀ (req : AlertsRequest) (stored : Option AlertsConfig),
      (configure_alerts req stored).1 = .validationError ↔
        (req.cpu_threshold = none ∨ req.memory_threshold = none ∨ req.disk_threshold = none)) ∧
    (∀ (req : AlertsRequest) (stored : Option AlertsConfig),
      (∀ c, (configure_alerts req stored).1 ≠ .success c) →
      (configure_alerts req stored).2 = stored) ∧
    (∀ (req : AlertsRequest) (stored : Option AlertsConfig) (c m d : ℚ),
      req.cpu_threshold.bind pyFloat = some c →
      req.memory_threshold.bind pyFloat = some m →
      req.disk_threshold.bind pyFloat = some d →
      configure_alerts req stored =
        (.success ⟨c, m, d, req.enabled.getD (.boolVal true)⟩,
         some ⟨c, m, d, req.enabled.getD (.boolVal true)⟩)) := by
  refine ⟨?_, ?_, ?_⟩
  · intro req stored
    rcases req with ⟨oc, om, od, oe⟩
    cases oc with
    | none => simp [configure_alerts]
    | some vc =>
      cases om with
      | none => simp [configure_alerts]
      | some vm =>
        cases od with
        | none => simp [configure_alerts]
        | some vd =>
          simp only [configure_alerts, Option.isNone_none, Option.isNone_some, Option.getD_some]
          cases pyFloat vc <;> cases pyFloat vm <;> cases pyFloat vd <;> simp
  · intro req stored h
    rcases req with ⟨oc, om, od, oe⟩
    cases oc with
    | none => simp [configure_alerts]
    | some vc =>
      cases om with
      | none => simp [configure_alerts]
      | some vm =>
        cases od with
        | none => simp [configure_alerts]
        | some vd =>
          simp only [configure_alerts, Option.isNone_none, Option.isNone_some, Option.getD_some] at h ⊢
          cases hc : pyFloat vc with
          | none => simp [hc]
          | some c =>
            cases hm : pyFloat vm with
            | none => simp [hc, hm]
            | some m =>
              cases hd : pyFloat vd with
              | none => simp [hc, hm, hd]
              | some d =>
                exfalso
                apply h ⟨c, m, d, oe.getD (.boolVal true)⟩
                simp [hc, hm, hd]
  · intro req stored c m d hc hm hd
    rcases req with ⟨oc, om, od, oe⟩
    cases oc with
    | none => simp at hc
    | some vc =>
      cases om with
      | none => simp at hm
      | some vm =>
        cases od with
        | none => simp at hd
        | some vd =>
          simp only [Option.some_bind] at hc hm hd
          simp [configure_alerts, hc, hm, hd]

/-- Witness for C4 (amended): a fully numeric request replaces the whole
config, with `enabled` defaulting to true. -/
theorem configure_alerts_spec_witness :
    configure_alerts ⟨some (.num 70), some (.strNum 75), some (.num 85), none⟩ none =
      (.success ⟨70, 75, 85, .boolVal true⟩, some ⟨70, 75, 85, .boolVal true⟩) :=
  configure_alerts_spec.2.2 ⟨some (.num 70), some (.strNum 75), some (.num 85), none⟩
    none 70 75 85 rfl rfl rfl

/-- Python truthiness of an optional float (None and 0.0 are falsy). -/
def truthyOpt : Option ℚ → Bool
  | none => false
  | some q => decide (q ≠ 0)

/-- `create_metric_card` (src/virtual_dashboard.py lines 103-114): the
status class is `warning` exactly when `warning_threshold` and
`current_value` are both truthy and the value exceeds the threshold;
nothing else is consulted. -/
def create_metric_card_status (warning_threshold current_value : Option ℚ) : String :=
  if truthyOpt warning_threshold = true ∧ truthyOpt current_value = true ∧
      warning_threshold.getD 0 < current_value.getD 0 then "warning" else "success"

/-- The `st.session_state.alert_config` dict of the dashboard. -/
structure DashAlertConfig where
  cpu_threshold : ℚ
  memory_threshold : ℚ
  disk_threshold : ℚ
  enabled : Bool
deriving Repr, DecidableEq

set_option linter.unusedVariables false in
/-- The breach evaluation actually performed by `plot_system_metrics`
(src/virtual_dashboard.py lines 139-178): each metric card is rendered
with the hardcoded thresholds 80/80/90; the session alert_config —
including its `enabled` flag — is never read here or in
`create_metric_card`. -/
def plot_system_metrics_status (alert_config : DashAlertConfig)
    (cpu_percent memory_percent disk_percent : ℚ) : String × String × String :=
  (create_metric_card_status (some 80) (some cpu_percent),
   create_metric_card_status (some 80) (some memory_percent),
   create_metric_card_status (some 90) (some disk_percent))

/-- Counterexample to claim C7 as stated: with `enabled := false` and a
CPU reading of 95 (above the 80 threshold), the dashboard still renders
the warning (breached) status instead of returning all-false. -/
theorem dashboard_status_enabled_false_counterexample :
    (plot_system_metrics_status ⟨80, 80, 90, false⟩ 95 10 10).1 = "warning" ∧
    "warning" ≠ "success" := by
  constructor
  · simp [plot_system_metrics_status, create_metric_card_status, truthyOpt]
    norm_num
  · decide

/-- Claim C7 (amended): the dashboard breach evaluation ignores the
AlertConfig entirely — both its thresholds and its `enabled` flag — and
marks a resource breached exactly when its current value exceeds the
hardcoded threshold (80 for CPU, 80 for memory, 90 for disk). -/
theorem dashboard_status_ignores_config (c1 c2 : DashAlertConfig)
    (cpu mem disk : ℚ) :
    plot_system_metrics_status c1 cpu mem disk = plot_system_metrics_status c2 cpu mem disk ∧
    ((plot_system_metrics_status c1 cpu mem disk).1 = "warning" ↔ 80 < cpu) ∧
    ((plot_system_metrics_status c1 cpu mem disk).2.1 = "warning" ↔ 80 < mem) ∧
    ((plot_system_metrics_status c1 cpu mem disk).2.2 = "warning" ↔ 90 < disk) := by
  refine ⟨rfl, ?_, ?_, ?_⟩
  · simp only [plot_system_metrics_status, create_metric_card_status, truthyOpt,
      Option.getD_some]
    constructor
    · intro h
      by_contra hlt
      simp [hlt] at h
    · intro h
      have hne : cpu ≠ 0 := by intro h0; rw [h0] at h; norm_num at h
      simp [h, hne]
  · simp only [plot_system_metrics_status, create_metric_card_status, truthyOpt,
      Option.getD_some]
    constructor
    · intro h
      by_contra hlt
      simp [hlt] at h
    · intro h
      have hne : mem ≠ 0 := by intro h0; rw [h0] at h; norm_num at h
      simp [h, hne]
  · simp only [plot_system_metrics_status, create_metric_card_status, truthyOpt,
      Option.getD_some]
    constructor
    · intro h
      by_contra hlt
      simp [hlt] at h
    · intro h
      have hne : disk ≠ 0 := by intro h0; rw [h0] at h; norm_num at h
      simp [h, hne]

/-- The unit list of `get_size_format` (src/os.py line 57). -/
def size_units : List String := ["B", "KB", "MB", "GB", "TB"]

/-- The loop body of `get_size_format`: return the value with the first
unit under which it is below 1024, dividing by 1024 each step; falling
off the end of the unit list returns no value (Python `None`).  The
value/unit pair stands for the formatted string; every division by 1024
is exact in binary floating point, so the rational model is faithful. -/
def sizeFormatGo : ℚ → List String → Option (ℚ × String)
  | _, [] => none
  | b, u :: us => if b < 1024 then some (b, u) else sizeFormatGo (b / 1024) us

/-- `SystemMonitor.get_size_format` (src/os.py lines 54-60). -/
def get_size_format (bytes_value : ℚ) : Option (ℚ × String) :=
  sizeFormatGo bytes_value size_units

lemma sizeFormatGo_isSome (us : List String) : ∀ b : ℚ, 0 ≤ b →
    ((sizeFormatGo b us).isSome ↔ (b < 1024 ^ us.length ∧ us ≠ [])) := by
  induction us with
  | nil =>
    intro b hb
    simp [sizeFormatGo]
  | cons u us ih =>
    intro b hb
    rw [sizeFormatGo]
    by_cases h : b < 1024
    · have hle : (1024 : ℚ) ≤ 1024 ^ (us.length + 1) :=
        le_self_pow₀ (by norm_num) (by omega)
      simp only [if_pos h, Option.isSome_some, List.length_cons]
      simp only [true_iff]
      exact ⟨lt_of_lt_of_le h hle, by simp⟩
    · have hb2 : (0 : ℚ) ≤ b / 1024 := by positivity
      rw [if_neg h, ih (b / 1024) hb2]
      by_cases hus : us = []
      · subst hus
        simp only [List.length_nil, pow_zero, List.length_cons, pow_one]
        constructor
        · rintro ⟨_, habs⟩
          exact absurd rfl habs
        · rintro ⟨hlt, _⟩
          exact absurd hlt h
      · simp only [hus, ne_eq, not_false_eq_true, and_true, List.length_cons]
        rw [div_lt_iff₀ (by norm_num : (0 : ℚ) < 1024), pow_succ]
        constructor
        · intro hlt
          exact ⟨hlt, by simp⟩
        · rintro ⟨hlt, _⟩
          exact hlt

/-- What `psutil` supplies for one process in `get_process_details`. -/
structure ProcessInfoSrc where
  name : String
  status : String
  cpu_percent : ℚ
  memory_percent : ℚ
  rss : ℚ
  create_time : Int
  username : String
  cmdline : String
  num_threads : Nat
  open_files : Nat
  connections : Nat
deriving Repr, DecidableEq

/-- The record returned by `SystemMonitor.get_process_details` (src/os.py
lines 62-82); `memory_usage` embeds the `get_size_format` result. -/
structure ProcessDetails where
  pid : Nat
  name : String
  status : String
  cpu_percent : ℚ
  memory_percent : ℚ
  memory_usage : Option (ℚ × String)
  create_time : Int
  username : String
  cmdline : String
  num_threads : Nat
  open_files : Nat
  connections : Nat
deriving Repr, DecidableEq

/-- `get_process_details`: `none` models `NoSuchProcess`/`AccessDenied`
(the function returns Python `None`); otherwise every field is copied
and `memory_usage` is the formatted resident size. -/
def get_process_details (pid : Nat) (info : Option ProcessInfoSrc) : Option ProcessDetails :=
  match info with
  | none => none
  | some i =>
    some ⟨pid, i.name, i.status, i.cpu_percent, i.memory_percent,
      get_size_format i.rss, i.create_time, i.username, i.cmdline,
      i.num_threads, i.open_files, i.connections⟩

/-- Claim C10: for every non-negative byte count below 1024^5 the
formatter yields a value/unit pair, and for any count of at least 1024^5
it falls off the unit list and yields none; a process-detail record for
such a process carries `memory_usage = none`. -/
theorem get_size_format_range :
    (∀ b : ℚ, 0 ≤ b → ((get_size_format b).isSome ↔ b < 1024 ^ 5)) ∧
    (∀ (pid : Nat) (i : ProcessInfoSrc) (d : ProcessDetails),
      get_process_details pid (some i) = some d → 1024 ^ 5 ≤ i.rss →
      d.memory_usage = none) := by
  constructor
  · intro b hb
    rw [get_size_format, sizeFormatGo_isSome size_units b hb]
    simp [size_units]
  · intro pid i d hd hrss
    have hb : (0 : ℚ) ≤ i.rss := le_trans (by positivity) hrss
    have hmem : d.memory_usage = get_size_format i.rss := by
      simp only [get_process_details, Option.some_inj] at hd
      rw [← hd]
    rw [hmem]
    have h2 : ¬ (get_size_format i.rss).isSome = true := by
      rw [get_size_format, sizeFormatGo_isSome size_units i.rss hb]
      intro hcon
      exact absurd hcon.1 (not_lt.mpr (by simpa [size_units] using hrss))
    exact Option.not_isSome_iff_eq_none.mp h2

/-- Witness for C10: the formatter succeeds at 512 bytes and the theorem
applies with its nonnegativity hypothesis discharged. -/
theorem get_size_format_range_witness :
    (get_size_format 512).isSome = true :=
  (get_size_format_range.1 512 (by norm_num)).mpr (by norm_num)

/-- What re-querying psutil for a pid yields in `analyze_memory_leak`:
`none` models `NoSuchProcess` at re-query time. -/
structure ProcQueryResult where
  name : String
  rss : ℚ
deriving Repr, DecidableEq

/-- One suspicious-process record emitted by `analyze_memory_leak`. -/
structure LeakCandidate where
  pid : Nat
  name : String
  memory_mb : ℚ
  trend : List ℚ
deriving Repr, DecidableEq

/-- `all(b > a for a, b in zip(t, t[1:]))`: every consecutive pair
strictly increases. -/
def strictlyInc : List ℚ → Bool
  | a :: b :: rest => decide (a < b) && strictlyInc (b :: rest)
  | _ => true

/-- Python `l[-5:]`: the last five elements (all of them when fewer). -/
def last5 (l : List ProcSample) : List ProcSample := l.drop (l.length - 5)

/-- `SystemMonitor.analyze_memory_leak` (src/os.py lines 85-104): for
each tracked pid with at least five samples whose last five
memory_percent values strictly increase, re-query the process; a vanished
process is skipped silently; otherwise emit a record when the resident
memory in MB exceeds the threshold. -/
def analyze_memory_leak (query : Nat → Option ProcQueryResult)
    (hist : List (Nat × List ProcSample)) (threshold_mb : ℚ) : List LeakCandidate :=
  hist.filterMap (fun e =>
    if 5 ≤ e.2.length then
      let memory_trend := (last5 e.2).map (fun s => s.memory_percent)
      if strictlyInc memory_trend then
        match query e.1 with
        | none => none
        | some r =>
          let memory_mb := r.rss / (1024 * 1024)
          if threshold_mb < memory_mb then
            some ⟨e.1, r.name, memory_mb, memory_trend⟩
          else none
      else none
    else none)

lemma analyze_memory_leak_mem (query : Nat → Option ProcQueryResult)
    (hist : List (Nat × List ProcSample)) (th : ℚ) (c : LeakCandidate) :
    c ∈ analyze_memory_leak query hist th ↔
      ∃ samples r, (c.pid, samples) ∈ hist ∧ 5 ≤ samples.length ∧
        strictlyInc ((last5 samples).map (fun s => s.memory_percent)) = true ∧
        query c.pid = some r ∧ th < r.rss / (1024 * 1024) ∧
        c.name = r.name ∧ c.memory_mb = r.rss / (1024 * 1024) ∧
        c.trend = (last5 samples).map (fun s => s.memory_percent) := by
  rw [analyze_memory_leak, List.mem_filterMap]
  constructor
  · rintro ⟨⟨pid, samples⟩, he, hfe⟩
    dsimp only at hfe
    split at hfe
    · split at hfe
      · rename_i h5 hinc
        cases hq : query pid with
        | none => rw [hq] at hfe; exact absurd hfe (by simp)
        | some r =>
          rw [hq] at hfe
          dsimp only at hfe
          split at hfe
          · rename_i hth
            have hc := Option.some_inj.mp hfe
            subst hc
            exact ⟨samples, r, he, h5, hinc, hq, hth, rfl, rfl, rfl⟩
          · exact absurd hfe (by simp)
      · exact absurd hfe (by simp)
    · exact absurd hfe (by simp)
  · rintro ⟨samples, r, hmem, h5, hinc, hq, hth, hname, hmb, htrend⟩
    refine ⟨(c.pid, samples), hmem, ?_⟩
    dsimp only
    rw [if_pos h5, if_pos hinc, hq]
    dsimp only
    rw [if_pos hth]
    cases c
    simp only [Option.some_inj] at *
    simp [hname, hmb, htrend]

/-- Query map for the concrete C2 scenario: pid 1 is alive, named
worker, holding 150 MB (157286400 bytes) resident. -/
def leakQueryEx : Nat → Option ProcQueryResult :=
  fun pid => if pid = 1 then some ⟨"worker", 157286400⟩ else none

/-- History for the concrete C2 scenario: pid 1 with the strictly
increasing five-point trend 10, 20, 30, 40, 50. -/
def leakHistEx : List (Nat × List ProcSample) :=
  [(1, [⟨0, 10⟩, ⟨60, 20⟩, ⟨120, 30⟩, ⟨180, 40⟩, ⟨240, 50⟩])]

/-- Claim C2: a candidate is emitted for a pid exactly when the pid has
at least five retained samples, its last five memory_percent values
strictly increase pairwise, the process still exists at re-query time
(a vanished pid is silently excluded), and its resident memory in MB
exceeds the threshold; the candidate carries exactly that pid, the
process name, the memory in MB and the five-point trend.  A flat trend
such as 10,10,10,10,10 never appears, and the trend 10,20,30,40,50 with
150 MB resident and threshold 100 appears exactly once with memory 150. -/
theorem analyze_memory_leak_correct :
    (∀ (query : Nat → Option ProcQueryResult) (hist : List (Nat × List ProcSample))
        (th : ℚ) (c : LeakCandidate),
      c ∈ analyze_memory_leak query hist th ↔
        ∃ samples r, (c.pid, samples) ∈ hist ∧ 5 ≤ samples.length ∧
          strictlyInc ((last5 samples).map (fun s => s.memory_percent)) = true ∧
          query c.pid = some r ∧ th < r.rss / (1024 * 1024) ∧
          c.name = r.name ∧ c.memory_mb = r.rss / (1024 * 1024) ∧
          c.trend = (last5 samples).map (fun s => s.memory_percent)) ∧
    (∀ (query : Nat → Option ProcQueryResult) (hist : List (Nat × List ProcSample))
        (th : ℚ) (c : LeakCandidate),
      c ∈ analyze_memory_leak query hist th → c.trend ≠ [10, 10, 10, 10, 10]) ∧
    analyze_memory_leak leakQueryEx leakHistEx 100 =
      [⟨1, "worker", 150, [10, 20, 30, 40, 50]⟩] := by
  refine ⟨analyze_memory_leak_mem, ?_, ?_⟩
  · intro query hist th c hc hflat
    rcases (analyze_memory_leak_mem query hist th c).mp hc with
      ⟨samples, r, _, _, hinc, _, _, _, _, htrend⟩
    rw [← htrend, hflat] at hinc
    exact absurd hinc (by decide)
  · rw [analyze_memory_leak]
    simp only [leakHistEx, List.filterMap_cons, List.filterMap_nil]
    norm_num [last5, strictlyInc, leakQueryEx]

/-- Witness for C2: the concrete candidate is a member of the concrete
report, via the theorem. -/
theorem analyze_memory_leak_witness :
    (⟨1, "worker", 150, [10, 20, 30, 40, 50]⟩ : LeakCandidate) ∈
      analyze_memory_leak leakQueryEx leakHistEx 100 := by
  rw [analyze_memory_leak_correct.2.2]
  exact List.mem_singleton.mpr rfl

end SysMon
